import Mathlib

/-!
Shallow embedding of the Vista Vocale repository (three Streamlit prototype
scripts: `vista_vocale_app.py`, `visto_vocale_app.py`, `parla_app.py`).
Python strings are modelled as `String` (or `List Char` where character-level
reasoning is needed), Python dicts carrying lesson fields as association
lists, and the external HTTP / Gemini / gTTS collaborators as explicit
oracle parameters.  Fallible external calls return `Option` values, with
`none` standing for a raised-and-caught exception.
-/

namespace VistaVocale

/-! ## Python string primitives (over `List Char`) -/

/-- Decides whether `pat` occurs at the very start of `s`
(the character-list form of Python `s.startswith(pat)`). -/
def leadsWith : List Char → List Char → Bool
  | [], _ => true
  | _ :: _, [] => false
  | a :: pat, b :: s => a == b && leadsWith pat s

/-- Python substring membership `pat in s`: `pat` occurs somewhere in `s`
(the empty pattern occurs in every string, as in Python). -/
def containsSeq (pat : List Char) : List Char → Bool
  | [] => leadsWith pat []
  | c :: rest => leadsWith pat (c :: rest) || containsSeq pat rest

/-- Python `needle in hay` on `String`s. -/
def substr (needle hay : String) : Bool :=
  containsSeq needle.toList hay.toList

/-- Python `s.lower()` (character-wise lower-casing, as in `String.toLower`,
but defined over the character list so that it evaluates by kernel
reduction). -/
def lower (s : String) : String :=
  ⟨s.toList.map Char.toLower⟩

/-- Fuel-driven worker for `replaceAll`; the fuel is an upper bound on the
length of the remaining string (structural recursion on the fuel keeps the
function kernel-reducible).  The `0, _ :: _` arm is unreachable from
`replaceAll`. -/
def replaceAllGo (pat rep : List Char) : Nat → List Char → List Char
  | _, [] => []
  | 0, _ :: _ => []
  | fuel + 1, c :: rest =>
    if 0 < pat.length ∧ leadsWith pat (c :: rest) = true then
      rep ++ replaceAllGo pat rep fuel ((c :: rest).drop pat.length)
    else
      c :: replaceAllGo pat rep fuel rest

/-- Python `s.replace(pat, rep)` for a non-empty pattern: replace every
non-overlapping occurrence of `pat` in `s` by `rep`, scanning left to right
and never rescanning replacement text. -/
def replaceAll (pat rep : List Char) (s : List Char) : List Char :=
  replaceAllGo pat rep s.length s

/-- Python `s.strip(cset)`: remove from both ends of `s` every character that
belongs to the character set `cset`. -/
def stripChars (cset : List Char) (s : List Char) : List Char :=
  (((s.dropWhile fun c => cset.contains c).reverse.dropWhile
      fun c => cset.contains c)).reverse

/-- The backtick character (used by the code-fence markers). -/
def backtick : Char := Char.ofNat 96

/-! ## Model Directory (`get_prioritized_models`, vista_vocale_app.py 77-96) -/

/-- One entry of the provider's model listing: the fields of the JSON object
that the code reads (`m['name']` and `m.get('supportedGenerationMethods', [])`). -/
structure ModelEntry where
  name : String
  supportedGenerationMethods : List String
deriving DecidableEq

/-- The parsed body of the list-models response; the code reads
`data.get('models', [])`. -/
structure ListingBody where
  models : List ModelEntry
deriving DecidableEq

/-- The exclusion test of the filter loop:
`"tts" in name.lower() or "embedding" in name.lower()`. -/
def excluded (name : String) : Bool :=
  substr "tts" (lower name) || substr "embedding" (lower name)

/-- The filter loop of `get_prioritized_models`: keep the names of the
entries that support `generateContent` and are not excluded, in listing
order. -/
def valid_models (data : ListingBody) : List String :=
  (data.models.filter fun m =>
      m.supportedGenerationMethods.contains "generateContent"
        && ! excluded m.name).map
    fun m => m.name

/-- The ranking key `sort_key` (vista_vocale_app.py 89-93). -/
def sort_key (name : String) : Nat :=
  if substr "gemini-3" name then 0
  else if substr "gemini-2.5-flash" name && ! substr "lite" name then 1
  else if substr "gemini-2.5" name && ! substr "lite" name then 2
  else 50

/-- The comparison used by `valid_models.sort(key=sort_key)`. -/
def modelLe (a b : String) : Bool :=
  sort_key a ≤ sort_key b

/-- Filter then stable-sort by `sort_key` (Python `list.sort` is stable, so
it is modelled by the stable `List.mergeSort`). -/
def prioritize (data : ListingBody) : List String :=
  (valid_models data).mergeSort modelLe

/-- Outcome of the `requests.get` on the list-models endpoint together with
`response.json()`: `exn` is a raised transport exception, and a `resp` with
`body = none` is a response whose body failed to parse (both are caught by
the surrounding `try`/`except`). -/
inductive FetchResult where
  | exn : FetchResult
  | resp (status : Nat) (body : Option ListingBody) : FetchResult

/-- Whole-function model of `get_prioritized_models` as a function of the
fetch outcome: every error path returns the empty list. -/
def get_prioritized_models : FetchResult → List String
  | .exn => []
  | .resp status body =>
    if status ≠ 200 then []
    else
      match body with
      | none => []
      | some data => prioritize data

/-! ## Tolerant field lookup (`get_any`, vista_vocale_app.py 106-110) -/

/-- Python dict lookup on the association-list model of a lesson record
(`d[k]` guarded by `k in d`). -/
def lookupVal (d : List (String × String)) (k : String) : Option String :=
  (d.find? fun p => p.1 == k).map fun p => p.2

/-- The test `k in d and d[k]`: the key is present and its value is truthy
(for the string fields of a lesson record, non-empty). -/
def present_truthy (d : List (String × String)) (k : String) : Bool :=
  match lookupVal d k with
  | some v => v ≠ ""
  | none => false

/-- The tolerant lookup `get_any(d, keys, default="")`: for each key in
order, probe the exact spelling and then its lower-cased spelling, and
return the first truthy value found, else the default. -/
def get_any (d : List (String × String)) (keys : List String)
    (default : String) : String :=
  match keys with
  | [] => default
  | k :: rest =>
    if present_truthy d k then (lookupVal d k).getD default
    else if present_truthy d (lower k) then (lookupVal d (lower k)).getD default
    else get_any d rest default

/-- Spec-side rendering of §4.3: probe a flat, ordered list of key spellings
and return the first non-empty value found, else the default.  Used only to
be compared with `get_any`. -/
def extractField_probe (d : List (String × String)) (probes : List String)
    (default : String) : String :=
  match probes with
  | [] => default
  | k :: rest =>
    if present_truthy d k then (lookupVal d k).getD default
    else extractField_probe d rest default

/-- Spec-side `extractField`: the probe order is each candidate key followed
immediately by its lower-cased spelling. -/
def extractField_spec (d : List (String × String)) (keys : List String)
    (default : String) : String :=
  extractField_probe d (keys.flatMap fun k => [k, lower k]) default

/-! ## Code-fence normalizers (vista_vocale_app.py 210, visto_vocale_app.py 71) -/

/-- The normalizer of `run_photo_app`:
`raw_text.replace('```json','').replace('```','')`. -/
def vista_clean (raw_text : List Char) : List Char :=
  replaceAll ("```".toList) [] (replaceAll ("```json".toList) [] raw_text)

/-- The normalizer of `analyze_image_lesson` (visto_vocale_app.py):
`text.strip('```json\n').strip('\n```')` — Python `strip` takes a character
set, so each call removes any of those characters from both ends. -/
def visto_clean (text : List Char) : List Char :=
  stripChars ("\n```".toList) (stripChars ("```json\n".toList) text)

/-- A generated text wrapped in code-fence markers around a body, as the
spec describes the generation responses. -/
def fenced (body : List Char) : List Char :=
  "```json\n".toList ++ body ++ "\n```".toList

/-! ## Generation click handler (`run_photo_app`, vista_vocale_app.py 188-216) -/

/-- The `candidates` portion of the generation response body:
absent (`'candidates' not in res_json`), present but with the nested
indexing `['candidates'][0]['content']['parts'][0]['text']` raising, or
present with a text. -/
inductive CandidateField where
  | absent : CandidateField
  | malformed : CandidateField
  | text (raw_text : List Char) : CandidateField

/-- A generation response body as far as the code inspects it. -/
structure GenBody where
  candidates : CandidateField

/-- HTTP response of the generation endpoint; `body = none` models
`resp.json()` raising (caught by the surrounding `except`). -/
structure GenHttpResp where
  status : Nat
  body : Option GenBody

/-- Outcome of `requests.post` on the generation endpoint: a raised
transport exception or a response. -/
inductive PostResult where
  | exn : PostResult
  | resp (r : GenHttpResp) : PostResult

/-- What the click handler reports: the distinct UI outcomes of
vista_vocale_app.py 188-216 (`st.error("No models found.")`, storing the
lesson, `st.error("AI returned no candidates.")`, the status-code error
message, and the generic `except` error message). -/
inductive GenOutcome (Lesson : Type) where
  | noModels : GenOutcome Lesson
  | success (data : Lesson) : GenOutcome Lesson
  | errNoCandidates : GenOutcome Lesson
  | errHttp (status : Nat) : GenOutcome Lesson
  | errExn : GenOutcome Lesson
deriving DecidableEq

/-- The generate-button handler: on a non-empty ranked list it builds one
request for `my_models[0]` and classifies the single response; it never
touches any later candidate.  Returns the outcome together with the list of
generation requests issued (by model name).  `jloads` abstracts
`json.loads` (`none` models a raised `JSONDecodeError`, caught by the
`except`). -/
def generate_click (Lesson : Type) (my_models : List String)
    (post : String → PostResult) (jloads : List Char → Option Lesson) :
    GenOutcome Lesson × List String :=
  match my_models with
  | [] => (.noModels, [])
  | model_name :: _ =>
    match post model_name with
    | .exn => (.errExn, [model_name])
    | .resp r =>
      if r.status = 200 then
        match r.body with
        | none => (.errExn, [model_name])
        | some b =>
          match b.candidates with
          | .absent => (.errNoCandidates, [model_name])
          | .malformed => (.errExn, [model_name])
          | .text raw_text =>
            match jloads (vista_clean raw_text) with
            | none => (.errExn, [model_name])
            | some data => (.success data, [model_name])
      else (.errHttp r.status, [model_name])

/-! ## Speech renderer (`get_audio_bytes`, vista_vocale_app.py 98-104) -/

/-- Behaviour of the external gTTS call on a given text and language code:
either it produces audio bytes or it raises (empty text, unsupported
language code, network failure, ...). -/
inductive TtsOutcome where
  | audio (bytes : List Nat) : TtsOutcome
  | failure (msg : String) : TtsOutcome

/-- The wrapper `get_audio_bytes(text, lang_code)`: run gTTS inside
`try`/`except` and turn any failure into `None`. -/
def get_audio_bytes (gtts : String → String → TtsOutcome)
    (text lang_code : String) : Option (List Nat) :=
  match gtts text lang_code with
  | .audio bytes => some bytes
  | .failure _ => none

/-- What one vocabulary-tab item renders (vista_vocale_app.py 226-239):
the word/pronunciation/sentence texts, whether the audio control was shown
(`if ab: st.audio(...)`), and whether the trailing divider was reached. -/
structure VocabItemRender where
  word : String
  pron : String
  sent : String
  audioShown : Bool
  dividerShown : Bool

/-- The vocabulary-tab loop body for one lesson item. -/
def render_vocab_item (gtts : String → String → TtsOutcome)
    (item : List (String × String)) (lang_code : String) : VocabItemRender :=
  let word := get_any item ["target_word", "word", "term"] ""
  let pron := get_any item ["pronunciation", "pinyin"] ""
  let sent := get_any item ["target_sentence", "sentence", "example"] ""
  let ab := get_audio_bytes gtts (word ++ "... " ++ sent) lang_code
  { word := word, pron := pron, sent := sent,
    audioShown := ab.isSome, dividerShown := true }

/-! ## Startup credential handling -/

/-- Result of running the top of a script: either `st.stop()` was reached
after an error message, or the script keeps running. -/
inductive StartupResult where
  | halted (msg : String) : StartupResult
  | running (api_key : String) : StartupResult
deriving DecidableEq

/-- Startup of vista_vocale_app.py (lines 17-23, identically parla_app.py
11-16): reading the missing secret raises, the `except` shows an error and
calls `st.stop()`, so nothing further runs. -/
def vista_startup (secrets : Option String) : StartupResult :=
  match secrets with
  | some k => .running k
  | none => .halted "API Key missing. Please check Secrets."

/-- Startup state of visto_vocale_app.py: `API_KEY = os.environ.get(...)`
never raises and the script continues unconditionally into page setup and
the main layout. -/
structure VistoStartup where
  api_key : Option String
  halted : Bool
  uiRendered : Bool

/-- Startup of visto_vocale_app.py (line 11 followed by lines 27-87): the
key is read as an `Option` and the UI is rendered regardless. -/
def visto_startup (env_key : Option String) : VistoStartup :=
  { api_key := env_key, halted := false, uiRendered := true }

/-- Model of `analyze_image_lesson` (visto_vocale_app.py 43-76): on a
missing key it shows an error and returns `(None, None)` before any
request; otherwise it downloads the image (`raise_for_status` raises for
status ≥ 400), calls Gemini, strips the fences and parses.  The second
component of the result records the outbound requests made (the image URL
and the generation call). -/
def analyze_image_lesson (Lesson : Type) (api_key : Option String)
    (httpGet : String → Option (Nat × List Nat))
    (gemini : List Nat → Option (List Char))
    (jloads : List Char → Option Lesson)
    (image_url : String) :
    (Option Lesson × Option (List Nat)) × List String :=
  match api_key with
  | none => ((none, none), [])
  | some _ =>
    match httpGet image_url with
    | none => ((none, none), [image_url])
    | some (status, image_bytes) =>
      if 400 ≤ status then ((none, none), [image_url])
      else
        match gemini image_bytes with
        | none => ((none, none), [image_url, "generateContent"])
        | some text =>
          match jloads (visto_clean text) with
          | none => ((none, none), [image_url, "generateContent"])
          | some data =>
            ((some data, some image_bytes), [image_url, "generateContent"])

/-! ## JSON validity -/

/-- Modelled from the spec: the generation response "returns a JSON body
containing generated text"; the repository parses the stripped text with
the external Python `json.loads`.  This is a minimal executable JSON
validity checker (null/true/false, strings with escapes, integer and
fraction numbers, arrays, objects, whitespace) standing in for that
external parser. -/
def json_ws (c : Char) : Bool :=
  c == ' ' || c == '\n' || c == '\t' || c == '\r'

/-- Skip JSON whitespace. -/
def skipWs (s : List Char) : List Char :=
  s.dropWhile json_ws

/-- Consume the remainder of a JSON string after its opening quote. -/
def json_string_rest : List Char → Option (List Char)
  | [] => none
  | c :: rest =>
    if c == '"' then some rest
    else if c == '\\' then
      match rest with
      | [] => none
      | _ :: r => json_string_rest r
    else json_string_rest rest

/-- Consume a JSON number (optional minus, digits, optional fraction). -/
def json_number_rest (s : List Char) : Option (List Char) :=
  let s1 := match s with
    | c :: r => if c == '-' then r else s
    | [] => s
  if (s1.takeWhile Char.isDigit).isEmpty then none
  else
    match s1.dropWhile Char.isDigit with
    | c :: r =>
      if c == '.' then
        if (r.takeWhile Char.isDigit).isEmpty then none
        else some (r.dropWhile Char.isDigit)
      else some (c :: r)
    | [] => some []

mutual

/-- Consume one JSON value, returning the unconsumed remainder. -/
def json_value : Nat → List Char → Option (List Char)
  | 0, _ => none
  | fuel + 1, s =>
    match s with
    | [] => none
    | c :: rest =>
      if c == 'n' then
        if leadsWith ("null".toList) s then some (s.drop 4) else none
      else if c == 't' then
        if leadsWith ("true".toList) s then some (s.drop 4) else none
      else if c == 'f' then
        if leadsWith ("false".toList) s then some (s.drop 5) else none
      else if c == '"' then json_string_rest rest
      else if c == '[' then json_items fuel (skipWs rest)
      else if c == '{' then json_members fuel (skipWs rest)
      else json_number_rest s

/-- Consume the elements of a JSON array after the opening bracket. -/
def json_items : Nat → List Char → Option (List Char)
  | 0, _ => none
  | fuel + 1, s =>
    match s with
    | [] => none
    | c :: rest =>
      if c == ']' then some rest
      else
        match json_value fuel s with
        | none => none
        | some r1 =>
          match skipWs r1 with
          | ',' :: r2 =>
            match skipWs r2 with
            | ']' :: _ => none
            | r3 => json_items fuel r3
          | ']' :: r2 => some r2
          | _ => none

/-- Consume the members of a JSON object after the opening brace. -/
def json_members : Nat → List Char → Option (List Char)
  | 0, _ => none
  | fuel + 1, s =>
    match s with
    | [] => none
    | c :: rest =>
      if c == '}' then some rest
      else if c == '"' then
        match json_string_rest rest with
        | none => none
        | some r1 =>
          match skipWs r1 with
          | ':' :: r2 =>
            match json_value fuel (skipWs r2) with
            | none => none
            | some r3 =>
              match skipWs r3 with
              | ',' :: r4 =>
                match skipWs r4 with
                | '}' :: _ => none
                | r5 => json_members fuel r5
              | '}' :: r4 => some r4
              | _ => none
          | _ => none
      else none

end

/-- A string is valid JSON when one value plus surrounding whitespace
consumes it entirely. -/
def json_valid (s : List Char) : Bool :=
  match json_value (s.length + 1) (skipWs s) with
  | some rest => (skipWs rest).isEmpty
  | none => false

/-! ## Helper lemmas -/

lemma leadsWith_append_self (pat t : List Char) : leadsWith pat (pat ++ t) = true := by
  induction pat with
  | nil => rfl
  | cons a pat ih => simp [leadsWith, ih]

lemma leadsWith_head_ne {a c : Char} (pat s : List Char) (h : a ≠ c) :
    leadsWith (a :: pat) (c :: s) = false := by
  simp [leadsWith, h]

lemma replaceAllGo_fuel (pat rep : List Char) :
    ∀ (f f' : Nat) (s : List Char), s.length ≤ f → s.length ≤ f' →
      replaceAllGo pat rep f s = replaceAllGo pat rep f' s := by
  intro f
  induction f with
  | zero =>
    intro f' s h _
    cases s with
    | nil => cases f' <;> rfl
    | cons c rest => simp at h
  | succ f ih =>
    intro f' s h h'
    cases s with
    | nil => cases f' <;> rfl
    | cons c rest =>
      cases f' with
      | zero => simp at h'
      | succ f'' =>
        simp only [replaceAllGo]
        by_cases hc : 0 < pat.length ∧ leadsWith pat (c :: rest) = true
        · rw [if_pos hc, if_pos hc,
            ih f'' ((c :: rest).drop pat.length) ?_ ?_] <;>
            simp only [List.length_drop, List.length_cons] at * <;> omega
        · rw [if_neg hc, if_neg hc, ih f'' rest ?_ ?_] <;>
            simp only [List.length_cons] at * <;> omega

lemma replaceAll_nil (pat rep : List Char) : replaceAll pat rep [] = [] := rfl

lemma replaceAll_cons_neg (pat rep : List Char) (c : Char) (rest : List Char)
    (h : leadsWith pat (c :: rest) = false) :
    replaceAll pat rep (c :: rest) = c :: replaceAll pat rep rest := by
  simp [replaceAll, replaceAllGo, h]

lemma replaceAll_cons_pos (pat rep : List Char) (c : Char) (rest : List Char)
    (hp : 0 < pat.length) (h : leadsWith pat (c :: rest) = true) :
    replaceAll pat rep (c :: rest) =
      rep ++ replaceAll pat rep ((c :: rest).drop pat.length) := by
  simp only [replaceAll, List.length_cons, replaceAllGo, hp, h, and_self, if_true]
  rw [replaceAllGo_fuel pat rep rest.length ((c :: rest).drop pat.length).length
      ((c :: rest).drop pat.length) ?_ ?_] <;>
    simp only [List.length_drop, List.length_cons] <;> omega

lemma replaceAll_self_pat (pat rep t : List Char) (hp : pat ≠ []) :
    replaceAll pat rep (pat ++ t) = rep ++ replaceAll pat rep t := by
  cases pat with
  | nil => exact absurd rfl hp
  | cons a pat =>
    rw [List.cons_append,
      replaceAll_cons_pos _ _ _ _ (by simp) (by
        rw [← List.cons_append]; exact leadsWith_append_self (a :: pat) t)]
    congr 1
    rw [← List.cons_append, List.drop_left]

lemma replaceAll_skip (pat rep : List Char) (a : Char) (hp : pat.head? = some a) :
    ∀ (s t : List Char), a ∉ s →
      replaceAll pat rep (s ++ t) = s ++ replaceAll pat rep t := by
  intro s
  induction s with
  | nil => intro t _; rfl
  | cons c s ih =>
    intro t hmem
    have hne : a ≠ c := fun e => hmem (e ▸ List.mem_cons_self c s)
    cases pat with
    | nil => simp at hp
    | cons a0 pat =>
      have ha0 : a0 = a := by simpa using hp
      rw [List.cons_append,
        replaceAll_cons_neg _ _ _ _ (leadsWith_head_ne pat (s ++ t) (ha0 ▸ hne)),
        ih t (fun hx => hmem (List.mem_cons_of_mem c hx)), List.cons_append]

lemma dropWhile_append_all (p : Char → Bool) (xs ys : List Char)
    (h : ∀ x ∈ xs, p x = true) :
    (xs ++ ys).dropWhile p = ys.dropWhile p := by
  induction xs with
  | nil => rfl
  | cons x xs ih =>
    rw [List.cons_append, List.dropWhile_cons_of_pos (h x (List.mem_cons_self x xs))]
    exact ih fun y hy => h y (List.mem_cons_of_mem x hy)

lemma stripChars_no_strip (cset s : List Char)
    (h1 : ∀ c, s.head? = some c → cset.contains c = false)
    (h2 : ∀ c, s.getLast? = some c → cset.contains c = false) :
    stripChars cset s = s := by
  unfold stripChars
  have e1 : s.dropWhile (fun c => cset.contains c) = s := by
    cases s with
    | nil => rfl
    | cons c rest =>
      have hcf : cset.contains c = false := h1 c rfl
      rw [List.dropWhile_cons_of_neg (by simp at hcf ⊢; exact hcf)]
  rw [e1]
  have e2 : s.reverse.dropWhile (fun c => cset.contains c) = s.reverse := by
    cases hr : s.reverse with
    | nil => rfl
    | cons c rest =>
      have hc : s.getLast? = some c := by
        rw [← List.head?_reverse, hr]; rfl
      have hcf : cset.contains c = false := h2 c hc
      rw [List.dropWhile_cons_of_neg (by simp at hcf ⊢; exact hcf)]
  rw [e2, List.reverse_reverse]

lemma stripChars_fence (cset pre post s : List Char)
    (hs : s ≠ [])
    (hpre : ∀ x ∈ pre, cset.contains x = true)
    (hpost : ∀ x ∈ post, cset.contains x = true)
    (hhead : ∀ c, s.head? = some c → cset.contains c = false)
    (hlast : ∀ c, s.getLast? = some c → cset.contains c = false) :
    stripChars cset (pre ++ s ++ post) = s := by
  unfold stripChars
  have e1 : (pre ++ s ++ post).dropWhile (fun c => cset.contains c) = s ++ post := by
    rw [List.append_assoc, dropWhile_append_all _ _ _ hpre]
    cases s with
    | nil => exact absurd rfl hs
    | cons c s' =>
      have hcf : cset.contains c = false := hhead c rfl
      rw [List.cons_append, List.dropWhile_cons_of_neg (by simp at hcf ⊢; exact hcf)]
  rw [e1]
  have e2 : (s ++ post).reverse.dropWhile (fun c => cset.contains c) = s.reverse := by
    rw [List.reverse_append,
      dropWhile_append_all _ _ _ (fun x hx => hpost x (List.mem_reverse.mp hx))]
    cases hr : s.reverse with
    | nil => simp at hr; exact absurd hr hs
    | cons c r =>
      have hc : s.getLast? = some c := by
        rw [← List.head?_reverse, hr]; rfl
      have hcf : cset.contains c = false := hlast c hc
      rw [List.dropWhile_cons_of_neg (by simp at hcf ⊢; exact hcf)]
  rw [e2, List.reverse_reverse]

lemma modelLe_trans (a b c : String) : modelLe a b → modelLe b c → modelLe a c := by
  simp only [modelLe, decide_eq_true_eq]
  omega

lemma modelLe_total (a b : String) : modelLe a b || modelLe b a := by
  simp only [modelLe, Bool.or_eq_true, decide_eq_true_eq]
  omega

/-! ## Claim theorems -/

/-- C1 (counterexample): with a ranked list of four candidates and a
provider that answers every request with the transient status 429, the
generate handler issues exactly one request — not `maxAttempts = 4` — so it
does not advance through the ranked candidates on transient errors. -/
theorem c1_counterexample :
    (generate_click Nat ["models/a", "models/b", "models/c", "models/d"]
        (fun _ => .resp ⟨429, none⟩) (fun _ => none)).2.length = 1 ∧
    ¬ (generate_click Nat ["models/a", "models/b", "models/c", "models/d"]
        (fun _ => .resp ⟨429, none⟩) (fun _ => none)).2.length = 4 ∧
    (generate_click Nat ["models/a", "models/b", "models/c", "models/d"]
        (fun _ => .resp ⟨429, none⟩) (fun _ => none)).1 = .errHttp 429 := by
  refine ⟨rfl, by decide, rfl⟩

/-- C1 (amended): whenever the ranked list is non-empty and the response to
the first candidate carries a non-success HTTP status (transient or not),
the generate handler issues exactly one request, to the top-ranked
candidate, reports that status as an error, and never advances to any
further candidate. -/
theorem c1_single_attempt (Lesson : Type) (model_name : String)
    (rest : List String) (post : String → PostResult)
    (jloads : List Char → Option Lesson) (r : GenHttpResp)
    (hpost : post model_name = .resp r) (hstatus : ¬ r.status = 200) :
    generate_click Lesson (model_name :: rest) post jloads =
      (.errHttp r.status, [model_name]) := by
  simp [generate_click, hpost, hstatus]

/-- C1 (witness for the amended theorem). -/
theorem c1_single_attempt_witness :
    generate_click Nat ["models/gemini-2.5-pro", "models/gemini-2.5-flash"]
        (fun _ => .resp ⟨429, none⟩) (fun _ => none) =
      (.errHttp 429, ["models/gemini-2.5-pro"]) :=
  c1_single_attempt Nat "models/gemini-2.5-pro" ["models/gemini-2.5-flash"]
    (fun _ => .resp ⟨429, none⟩) (fun _ => none) ⟨429, none⟩ rfl (by decide)

/-- C2: whenever the listing contains at least one model that supports
`generateContent` and is not excluded by the tts/embedding name filter,
`get_prioritized_models` on the successfully fetched listing returns a
non-empty sequence; and being a pure function of the listing, it returns
the same sequence on every run over the same input. -/
theorem c2_nonempty_deterministic (data : ListingBody)
    (h : ∃ m ∈ data.models,
      m.supportedGenerationMethods.contains "generateContent" = true ∧
        excluded m.name = false) :
    ¬ get_prioritized_models (.resp 200 (some data)) = [] ∧
    get_prioritized_models (.resp 200 (some data)) =
      get_prioritized_models (.resp 200 (some data)) := by
  refine ⟨?_, rfl⟩
  obtain ⟨m, hm, h1, h2⟩ := h
  have hgpm : get_prioritized_models (.resp 200 (some data)) = prioritize data := by
    simp [get_prioritized_models]
  rw [hgpm]
  have hmem : m.name ∈ valid_models data :=
    List.mem_map.mpr ⟨m, List.mem_filter.mpr ⟨hm, by rw [h1, h2]; rfl⟩, rfl⟩
  intro hnil
  have hin : m.name ∈ (valid_models data).mergeSort modelLe :=
    List.mem_mergeSort.mpr hmem
  rw [show (valid_models data).mergeSort modelLe = prioritize data from rfl,
    hnil] at hin
  exact List.not_mem_nil m.name hin

/-- C2 (witness). -/
theorem c2_nonempty_deterministic_witness :
    ¬ get_prioritized_models
        (.resp 200 (some ⟨[⟨"models/gemini-2.5-pro", ["generateContent"]⟩]⟩)) = [] ∧
    get_prioritized_models
        (.resp 200 (some ⟨[⟨"models/gemini-2.5-pro", ["generateContent"]⟩]⟩)) =
      get_prioritized_models
        (.resp 200 (some ⟨[⟨"models/gemini-2.5-pro", ["generateContent"]⟩]⟩)) :=
  c2_nonempty_deterministic ⟨[⟨"models/gemini-2.5-pro", ["generateContent"]⟩]⟩
    ⟨⟨"models/gemini-2.5-pro", ["generateContent"]⟩, by decide⟩

/-- C3: the ranked output is sorted by priority — whenever the entry at
position `i` has a strictly smaller `sort_key` than the entry at position
`j`, position `i` comes first — so an earlier-priority name is placed
before a later-priority one regardless of their order in the input; and the
sort is stable: two names of equal priority that appear in some order among
the filtered provider listing keep that order in the ranked output. -/
theorem c3_rank_order_stable (data : ListingBody) :
    (∀ a b : String, a ∈ prioritize data → b ∈ prioritize data →
      sort_key a < sort_key b →
      (prioritize data).indexOf a < (prioritize data).indexOf b) ∧
    (∀ a b : String, sort_key a = sort_key b →
      List.Sublist [a, b] (valid_models data) →
      List.Sublist [a, b] (prioritize data)) := by
  have hsorted : (prioritize data).Pairwise (fun a b => modelLe a b = true) :=
    @List.sorted_mergeSort String modelLe modelLe_trans modelLe_total
      (valid_models data)
  constructor
  · intro a b ha hb hlt
    have hia : (prioritize data).indexOf a < (prioritize data).length :=
      List.indexOf_lt_length.mpr ha
    have hib : (prioritize data).indexOf b < (prioritize data).length :=
      List.indexOf_lt_length.mpr hb
    by_contra hc
    push_neg at hc
    rcases Nat.eq_or_lt_of_le hc with he | hlt2
    · have hab : a = b := by
        have e1 := List.getElem_indexOf hia
        have e2 := List.getElem_indexOf hib
        rw [← e1, ← e2]
        congr 1
        omega
      rw [hab] at hlt
      omega
    · have hpw := List.pairwise_iff_getElem.mp hsorted
        ((prioritize data).indexOf b) ((prioritize data).indexOf a) hib hia hlt2
      rw [List.getElem_indexOf hib, List.getElem_indexOf hia] at hpw
      simp only [modelLe, decide_eq_true_eq] at hpw
      omega
  · intro a b hk hsub
    exact List.pair_sublist_mergeSort modelLe_trans modelLe_total
      (by simp [modelLe, hk]) hsub

/-- C3 (witness): the flash variant (priority 1) is ranked before the
non-flash 2.5 variant (priority 2) although the provider listed them in the
opposite order, and two unranked (priority 50) names keep their provider
order. -/
theorem c3_rank_order_stable_witness :
    (prioritize ⟨[⟨"models/gemini-2.5-pro", ["generateContent"]⟩,
        ⟨"models/gemini-2.5-flash", ["generateContent"]⟩]⟩).indexOf
        "models/gemini-2.5-flash" <
      (prioritize ⟨[⟨"models/gemini-2.5-pro", ["generateContent"]⟩,
        ⟨"models/gemini-2.5-flash", ["generateContent"]⟩]⟩).indexOf
        "models/gemini-2.5-pro" ∧
    List.Sublist ["models/gemini-1.5-pro", "models/gemini-1.0-pro"]
      (prioritize ⟨[⟨"models/gemini-1.5-pro", ["generateContent"]⟩,
        ⟨"models/gemini-1.0-pro", ["generateContent"]⟩]⟩) := by
  have hout : prioritize ⟨[⟨"models/gemini-2.5-pro", ["generateContent"]⟩,
      ⟨"models/gemini-2.5-flash", ["generateContent"]⟩]⟩ =
      ["models/gemini-2.5-flash", "models/gemini-2.5-pro"] := by
    show (valid_models _).mergeSort modelLe = _
    rw [show valid_models ⟨[⟨"models/gemini-2.5-pro", ["generateContent"]⟩,
        ⟨"models/gemini-2.5-flash", ["generateContent"]⟩]⟩ =
      ["models/gemini-2.5-pro", "models/gemini-2.5-flash"] from by decide]
    rw [List.mergeSort]
    simp [List.merge]
    decide
  refine ⟨(c3_rank_order_stable ⟨[⟨"models/gemini-2.5-pro", ["generateContent"]⟩,
        ⟨"models/gemini-2.5-flash", ["generateContent"]⟩]⟩).1
      "models/gemini-2.5-flash" "models/gemini-2.5-pro" ?_ ?_ ?_,
    (c3_rank_order_stable ⟨[⟨"models/gemini-1.5-pro", ["generateContent"]⟩,
        ⟨"models/gemini-1.0-pro", ["generateContent"]⟩]⟩).2
      "models/gemini-1.5-pro" "models/gemini-1.0-pro" (by decide) (by decide)⟩
  · rw [hout]
    decide
  · rw [hout]
    decide
  · decide

/-- C4: `get_any` equals the spec's `extractField`: it probes, in candidate
order, each key and then its lower-cased spelling and returns the first
non-empty value found, and it returns the supplied default when no
candidate spelling holds a non-empty value; as a total function it never
raises. -/
theorem c4_extract_field (d : List (String × String)) (keys : List String)
    (default : String) :
    get_any d keys default = extractField_spec d keys default ∧
    ((∀ k ∈ keys, present_truthy d k = false ∧
        present_truthy d (lower k) = false) →
      get_any d keys default = default) := by
  constructor
  · induction keys with
    | nil => rfl
    | cons k rest ih =>
      simp only [get_any, extractField_spec, List.flatMap_cons, List.cons_append,
        List.nil_append, extractField_probe]
      rw [ih]
      rfl
  · induction keys with
    | nil => intro _; rfl
    | cons k rest ih =>
      intro h
      have hk := h k (List.mem_cons_self k rest)
      simp only [get_any, hk.1, hk.2, Bool.false_eq_true, if_false]
      exact ih fun k' hk' => h k' (List.mem_cons_of_mem k hk')

/-- C4 (witness). -/
theorem c4_extract_field_witness :
    get_any [("Word", "x")] ["foo"] "dd" =
        extractField_spec [("Word", "x")] ["foo"] "dd" ∧
    get_any [("Word", "x")] ["foo"] "dd" = "dd" :=
  ⟨(c4_extract_field [("Word", "x")] ["foo"] "dd").1,
   (c4_extract_field [("Word", "x")] ["foo"] "dd").2 (by decide)⟩

/-- C5: on a transport error, on any non-200 status, and on a body that
fails to parse, `get_prioritized_models` returns the empty list instead of
raising; and the photo-app click handler, given the empty ranked list,
reports the no-models error and issues no generation request. -/
theorem c5_error_paths :
    get_prioritized_models .exn = [] ∧
    (∀ (status : Nat) (body : Option ListingBody), ¬ status = 200 →
      get_prioritized_models (.resp status body) = []) ∧
    (∀ status : Nat, get_prioritized_models (.resp status none) = []) ∧
    (∀ (Lesson : Type) (post : String → PostResult)
        (jloads : List Char → Option Lesson),
      generate_click Lesson [] post jloads = (.noModels, [])) := by
  refine ⟨rfl, ?_, ?_, fun _ _ _ => rfl⟩
  · intro status body h
    simp [get_prioritized_models, h]
  · intro status
    by_cases h : status = 200 <;> simp [get_prioritized_models, h]

/-- C5 (witness). -/
theorem c5_error_paths_witness :
    get_prioritized_models
        (.resp 503 (some ⟨[⟨"models/gemini-2.5-pro", ["generateContent"]⟩]⟩)) = [] ∧
    get_prioritized_models (.resp 200 none) = [] ∧
    generate_click Nat [] (fun _ => .exn) (fun _ => none) = (.noModels, []) :=
  ⟨c5_error_paths.2.1 503 (some ⟨[⟨"models/gemini-2.5-pro", ["generateContent"]⟩]⟩)
      (by decide),
   c5_error_paths.2.2.1 200,
   c5_error_paths.2.2.2 Nat (fun _ => .exn) (fun _ => none)⟩

/-- C6: `get_audio_bytes` is total (never raises): it returns either `none`
or audio bytes, it returns `none` exactly on a gTTS failure (empty text,
unsupported language code, network error are all failures of the external
call), and on `none` the vocabulary renderer omits the audio control while
still reaching the rest of the item (the divider). -/
theorem c6_audio_never_raises (gtts : String → String → TtsOutcome)
    (text lang_code : String) :
    (get_audio_bytes gtts text lang_code = none ∨
      ∃ a, get_audio_bytes gtts text lang_code = some a) ∧
    (∀ msg, gtts text lang_code = .failure msg →
      get_audio_bytes gtts text lang_code = none) ∧
    (∀ item : List (String × String),
      get_audio_bytes gtts
          (get_any item ["target_word", "word", "term"] "" ++ "... " ++
            get_any item ["target_sentence", "sentence", "example"] "")
          lang_code = none →
        (render_vocab_item gtts item lang_code).audioShown = false ∧
        (render_vocab_item gtts item lang_code).dividerShown = true) := by
  refine ⟨?_, ?_, ?_⟩
  · cases e : gtts text lang_code <;> simp [get_audio_bytes, e]
  · intro msg h
    simp [get_audio_bytes, h]
  · intro item h
    exact ⟨by simp [render_vocab_item, h], rfl⟩

/-- C6 (witness). -/
theorem c6_audio_never_raises_witness :
    get_audio_bytes (fun _ _ => .failure "boom") "" "it" = none ∧
    (render_vocab_item (fun _ _ => .failure "boom") [] "it").audioShown = false ∧
    (render_vocab_item (fun _ _ => .failure "boom") [] "it").dividerShown = true :=
  ⟨(c6_audio_never_raises (fun _ _ => .failure "boom") "" "it").2.1 "boom" rfl,
   ((c6_audio_never_raises (fun _ _ => .failure "boom") "" "it").2.2 [] rfl).1,
   ((c6_audio_never_raises (fun _ _ => .failure "boom") "" "it").2.2 [] rfl).2⟩

/-- C7 (counterexample): in visto_vocale_app.py a missing credential does
not halt the script at startup — the page is set up and the whole UI
renders regardless, contradicting "halts at startup ... no UI pipeline
execution". -/
theorem c7_counterexample :
    (visto_startup none).halted = false ∧ (visto_startup none).uiRendered = true :=
  ⟨rfl, rfl⟩

/-- C7 (amended): vista_vocale_app.py (and parla_app.py) halt at startup
with an error message when the secret is missing, performing no further
work; visto_vocale_app.py instead starts and renders its UI regardless, and
only detects the missing key inside `analyze_image_lesson`, which shows an
error and returns without issuing any network request. -/
theorem c7_startup_credential :
    vista_startup none = .halted "API Key missing. Please check Secrets." ∧
    (∀ k, vista_startup (some k) = .running k) ∧
    (visto_startup none).halted = false ∧
    (visto_startup none).uiRendered = true ∧
    (∀ (Lesson : Type) (httpGet : String → Option (Nat × List Nat))
        (gemini : List Nat → Option (List Char))
        (jloads : List Char → Option Lesson) (url : String),
      analyze_image_lesson Lesson none httpGet gemini jloads url =
        ((none, none), [])) :=
  ⟨rfl, fun _ => rfl, rfl, rfl, fun _ _ _ _ _ => rfl⟩

/-- C8 (counterexample): for the fenced body "null" — valid JSON — the
strip-based normalizer of visto_vocale_app.py returns "ull" (Python `strip`
takes a character set, so it also eats the body's leading "n"), which is
not valid JSON: parsing the stripped text does not succeed exactly when the
enclosed body is valid JSON. -/
theorem c8_counterexample :
    visto_clean (fenced ("null".toList)) = "ull".toList ∧
    json_valid ("null".toList) = true ∧
    json_valid ("ull".toList) = false := by
  refine ⟨by decide, by decide, by decide⟩

/-- C8 (amended): for bodies shaped as the prompt mandates — a JSON object,
i.e. starting with a brace and ending with a brace, with no backtick
inside — both normalizers do strip the fence markers: the replace-based one
(vista_vocale_app.py) yields the body surrounded by the fence's newlines
(whitespace that JSON parsing ignores), and the strip-based one
(visto_vocale_app.py) yields exactly the body; for other valid JSON bodies
such as the bare value "null" the strip-based normalizer corrupts the
body. -/
theorem c8_fence_stripping (mid : List Char) (h : backtick ∉ mid) :
    vista_clean (fenced ('{' :: mid ++ ['}'])) =
      '\n' :: ('{' :: mid ++ ['}']) ++ ['\n'] ∧
    visto_clean (fenced ('{' :: mid ++ ['}'])) = '{' :: mid ++ ['}'] := by
  have hb2 : backtick ∉ '\n' :: ('{' :: mid ++ ['}']) := by
    intro hc
    rcases List.mem_cons.mp hc with h1 | hc2
    · exact absurd h1 (by decide)
    rcases List.mem_append.mp hc2 with h2 | h3
    · rcases List.mem_cons.mp h2 with h2a | h2b
      · exact absurd h2a (by decide)
      · exact h h2b
    · exact absurd h3 (by decide)
  constructor
  · have hinner : replaceAll ("```json".toList) [] (fenced ('{' :: mid ++ ['}'])) =
        ('\n' :: ('{' :: mid ++ ['}'])) ++ "\n```".toList := by
      have hsplit : fenced ('{' :: mid ++ ['}']) =
          "```json".toList ++
            (('\n' :: ('{' :: mid ++ ['}'])) ++ "\n```".toList) := by
        show "```json\n".toList ++ _ ++ "\n```".toList = _
        rw [show ("```json\n".toList : List Char) = "```json".toList ++ ['\n']
          from by decide]
        simp [List.append_assoc]
      rw [hsplit, replaceAll_self_pat _ _ _ (by decide), List.nil_append,
        replaceAll_skip _ _ backtick (by decide) _ _ hb2,
        show replaceAll ("```json".toList) [] ("\n```".toList) = "\n```".toList
          from by decide]
    show replaceAll ("```".toList) []
        (replaceAll ("```json".toList) [] (fenced _)) = _
    rw [hinner, replaceAll_skip _ _ backtick (by decide) _ _ hb2,
      show replaceAll ("```".toList) [] ("\n```".toList) = ['\n'] from by decide]
  · show stripChars ("\n```".toList) (stripChars ("```json\n".toList) (fenced _)) = _
    have hhead : ∀ c : Char, ('{' :: mid ++ ['}']).head? = some c → c = '{' := by
      intro c hc
      simpa using hc.symm
    have hlast : ∀ c : Char, ('{' :: mid ++ ['}']).getLast? = some c → c = '}' := by
      intro c hc
      rw [show ('{' :: mid ++ ['}'] : List Char) = ('{' :: mid) ++ ['}'] from rfl,
        List.getLast?_concat] at hc
      simpa using hc.symm
    rw [show fenced ('{' :: mid ++ ['}']) =
        "```json\n".toList ++ ('{' :: mid ++ ['}']) ++ "\n```".toList from rfl,
      stripChars_fence _ _ _ _ (by simp) (by decide) (by decide)
        (fun c hc => by rw [hhead c hc]; decide)
        (fun c hc => by rw [hlast c hc]; decide)]
    exact stripChars_no_strip _ _
      (fun c hc => by rw [hhead c hc]; decide)
      (fun c hc => by rw [hlast c hc]; decide)

/-- C8 (witness for the amended theorem). -/
theorem c8_fence_stripping_witness :
    vista_clean (fenced ("{}".toList)) = '\n' :: "{}".toList ++ ['\n'] ∧
    visto_clean (fenced ("{}".toList)) = "{}".toList :=
  c8_fence_stripping [] (by decide)

/-- C9: in `sort_key`, any name containing "gemini-3" gets the top rank 0
even when it also contains "lite"; and a name containing "gemini-2.5" (but
not "gemini-3") together with "lite" falls through to the unranked tier 50,
so the "lite" exclusion only acts inside the gemini-2.5 tiers. -/
theorem c9_sort_key_tiers (name : String) :
    (substr "gemini-3" name = true → sort_key name = 0) ∧
    (substr "gemini-3" name = false → substr "gemini-2.5" name = true →
      substr "lite" name = true → sort_key name = 50) := by
  constructor
  · intro h
    simp [sort_key, h]
  · intro h1 _ h3
    simp [sort_key, h1, h3]

/-- C9 (witness). -/
theorem c9_sort_key_tiers_witness :
    sort_key "models/gemini-3-flash-lite" = 0 ∧
    sort_key "models/gemini-2.5-flash-lite" = 50 :=
  ⟨(c9_sort_key_tiers "models/gemini-3-flash-lite").1 (by decide),
   (c9_sort_key_tiers "models/gemini-2.5-flash-lite").2 (by decide) (by decide)
     (by decide)⟩

/-- C10: `get_any` treats a key holding a falsy (empty) value as absent,
probes the exact spelling and then immediately its lower-cased spelling
before consulting any later candidate key, and hence returns a later
synonym's non-empty value in preference to an earlier synonym that is
present but empty. -/
theorem c10_probe_order (d : List (String × String)) (k1 k2 : String)
    (rest : List String) (default : String) :
    (lookupVal d k1 = some "" → present_truthy d k1 = false) ∧
    (present_truthy d k1 = false → present_truthy d (lower k1) = true →
      get_any d (k1 :: k2 :: rest) default =
        (lookupVal d (lower k1)).getD default) ∧
    (present_truthy d k1 = false → present_truthy d (lower k1) = false →
      present_truthy d k2 = true →
      get_any d (k1 :: k2 :: rest) default = (lookupVal d k2).getD default) := by
  refine ⟨?_, ?_, ?_⟩
  · intro h
    simp [present_truthy, h]
  · intro h1 h2
    simp [get_any, h1, h2]
  · intro h1 h2 h3
    simp [get_any, h1, h2, h3]

/-- C10 (witness): in `[("Word", ""), ("word", "ciao")]` the exact spelling
"Word" is present but empty, so the lower-cased fallback wins; in
`[("a", ""), ("b", "x")]` the later synonym "b" wins over the earlier,
present-but-empty "a". -/
theorem c10_probe_order_witness :
    get_any [("Word", ""), ("word", "ciao")] ["Word", "term"] "" =
        (lookupVal [("Word", ""), ("word", "ciao")] "word").getD "" ∧
    get_any [("a", ""), ("b", "x")] ["a", "b"] "dd" =
        (lookupVal [("a", ""), ("b", "x")] "b").getD "dd" :=
  ⟨(c10_probe_order [("Word", ""), ("word", "ciao")] "Word" "term" [] "").2.1
      (by decide) (by decide),
   (c10_probe_order [("a", ""), ("b", "x")] "a" "b" [] "dd").2.2
      (by decide) (by decide) (by decide)⟩

end VistaVocale
